import Mathlib

/-
Shallow embedding of the customer-demo workflow core:
the workflow runner in app/workflow-test/[id]/page.tsx (handleSubmit,
getCurrentApi and the page state), and the workflow editor in
app/workflow/page.tsx (handleAddStep, handleRemoveStep, the in-use
marking of API definitions and the option-disabling rule), over the data
model of app/types/api.ts.  JavaScript records are modelled as
association lists, JavaScript JSON values as an inductive `JsValue`
with an explicit `undefined`, and the `/api/proxy` collaborator as an
oracle function supplied to each run.
-/

/-- HTTP methods of `types/api.ts` (`HttpMethod`). -/
inductive HttpMethod where
  | GET : HttpMethod
  | POST : HttpMethod
  | PUT : HttpMethod
  | DELETE : HttpMethod
  | PATCH : HttpMethod
  deriving DecidableEq

/-- Parameter types of `types/api.ts` (`ParameterType`). -/
inductive ParameterType where
  | string : ParameterType
  | number : ParameterType
  | boolean : ParameterType
  | object : ParameterType
  deriving DecidableEq

/-- Parameter locations of `types/api.ts` (`ParameterLocation`). -/
inductive ParameterLocation where
  | path : ParameterLocation
  | query : ParameterLocation
  | body : ParameterLocation
  deriving DecidableEq

/-- `ApiHeader` of `types/api.ts`. -/
structure ApiHeader where
  key : String
  value : String
  isRequired : Bool

/-- `ApiParameter` of `types/api.ts`; optional fields become `Option`. -/
structure ApiParameter where
  name : String
  type : ParameterType
  location : ParameterLocation
  isRequired : Bool
  defaultValue : Option String := none
  description : Option String := none

/-- `ApiResponseMapping` of `types/api.ts`. -/
structure ApiResponseMapping where
  sourceField : String
  targetParameter : String

/-- `WorkflowStep` of `types/api.ts`. -/
structure WorkflowStep where
  apiConfigId : String
  order : Nat
  waitTime : Option Nat := none
  responseMapping : Option (List ApiResponseMapping) := none

/-- `ApiWorkflow` of `types/api.ts`. -/
structure ApiWorkflow where
  id : String
  name : String
  description : String
  steps : List WorkflowStep
  createdAt : String := ""
  updatedAt : String := ""

/-- `ApiConfig` of `types/api.ts`; optional fields become `Option`. -/
structure ApiConfig where
  id : String
  name : String
  description : String
  endpoint : String
  method : HttpMethod
  headers : List ApiHeader
  parameters : List ApiParameter
  createdAt : String := ""
  updatedAt : String := ""
  isWorkflowEnabled : Option Bool := none
  responseFields : Option (List String) := none
  isPartOfWorkflow : Option Bool := none

/-- JavaScript values as seen by the runner: JSON values plus
`undefined` (numbers restricted to integers; no claim computes with
numerics). -/
inductive JsValue where
  | undefined : JsValue
  | null : JsValue
  | bool : Bool → JsValue
  | num : Int → JsValue
  | str : String → JsValue
  | arr : List JsValue → JsValue
  | obj : List (String × JsValue) → JsValue

/-- Lookup in a JavaScript record modelled as an association list
(first binding wins; a JS object has no duplicate keys). -/
def getEntry {κ α : Type} [DecidableEq κ] : List (κ × α) → κ → Option α
  | [], _ => none
  | (k', v) :: rest, k => if k' = k then some v else getEntry rest k

/-- JavaScript property assignment `r[k] = v`: update in place if the
key exists (keeping its position, as JS objects do), else append. -/
def setEntry {κ α : Type} [DecidableEq κ] : List (κ × α) → κ → α → List (κ × α)
  | [], k, v => [(k, v)]
  | (k', v') :: rest, k, v =>
    if k' = k then (k', v) :: rest else (k', v') :: setEntry rest k v

/-- JavaScript truthiness of a value (`if (prevResponse)`). -/
def JsValue.truthy : JsValue → Bool
  | .undefined => false
  | .null => false
  | .bool b => b
  | .num n => decide (n ≠ 0)
  | .str s => decide (s ≠ "")
  | .arr _ => true
  | .obj _ => true

/-- JavaScript single-level property access `v[field]` on a data
object: a present key yields its value, anything else `undefined`. -/
def JsValue.getProp : JsValue → String → JsValue
  | .obj fields, k => (getEntry fields k).getD JsValue.undefined
  | _, _ => JsValue.undefined

/-- Decimal digits to a natural number (helper for `jsParseInt`). -/
def parseDecDigits (cs : List Char) : Nat :=
  cs.foldl (fun a c => a * 10 + (c.toNat - Char.toNat '0')) 0

/-- JavaScript `parseInt` on base-10 input: skip leading whitespace,
optional sign, then the longest digit prefix; `none` models `NaN`. -/
def jsParseInt (s : String) : Option Int :=
  let cs := s.toList.dropWhile (fun c => c.isWhitespace)
  let fromDigits := fun (neg : Bool) (rest : List Char) =>
    let ds := rest.takeWhile (fun c => c.isDigit)
    if ds.isEmpty then none
    else some (if neg then -(parseDecDigits ds : Int) else (parseDecDigits ds : Int))
  match cs with
  | '-' :: rest => fromDigits true rest
  | '+' :: rest => fromDigits false rest
  | _ => fromDigits false cs

/-- Character-list core of JavaScript `String.prototype.split` with a
single-character separator: every occurrence separates, adjacent
separators yield empty segments, and the result is never empty. -/
def splitCharAux (sep : Char) : List Char → List (List Char)
  | [] => [[]]
  | c :: rest =>
    match splitCharAux sep rest with
    | [] => [[]]
    | seg :: segs => if c = sep then [] :: seg :: segs else (c :: seg) :: segs

/-- JavaScript `s.split(sep)` for a one-character separator (the code
only ever splits on `'.'`). -/
def jsSplit (s : String) (sep : Char) : List String :=
  (splitCharAux sep s.toList).map (fun cs => String.mk cs)

/-- `stepResponses[parseInt(prevStepIndex)]`: a non-numeric index
(`NaN`) or a missing entry reads as `undefined`. -/
def lookupPriorResponse (rs : List (Int × JsValue)) (iStr : String) : JsValue :=
  match jsParseInt iStr with
  | some i => (getEntry rs i).getD JsValue.undefined
  | none => JsValue.undefined

/-- One iteration of the mapping loop in `handleSubmit`
(workflow-test page, lines 62-68): split the source field on every
`.`, destructure the first two segments, look the prior response up,
and produce the value to assign when that response is truthy. -/
def mappedValue (rs : List (Int × JsValue)) (m : ApiResponseMapping) : Option JsValue :=
  let parts := jsSplit m.sourceField '.'
  let prevStepIndex := parts.headD ""
  let field := (parts[1]?).getD "undefined"
  let prevResponse := lookupPriorResponse rs prevStepIndex
  if prevResponse.truthy then some (prevResponse.getProp field) else none

/-- Body of the `forEach` over `step.responseMapping` in
`handleSubmit`: a mapping with a truthy prior response assigns
`requestData[mapping.targetParameter] = prevResponse[field]`, any other
mapping leaves the record alone. -/
def applyOneMapping (rs : List (Int × JsValue)) (rd : List (String × JsValue))
    (m : ApiResponseMapping) : List (String × JsValue) :=
  match mappedValue rs m with
  | some v => setEntry rd m.targetParameter v
  | none => rd

/-- The whole `forEach` over `step.responseMapping`. -/
def applyMappings (rs : List (Int × JsValue)) (ms : List ApiResponseMapping)
    (requestData : List (String × JsValue)) : List (String × JsValue) :=
  ms.foldl (applyOneMapping rs) requestData

/-- `const requestData = { ...formData }` followed by the mapping loop
guarded by `if (step.responseMapping)`. -/
def computeRequestData (formData : List (String × JsValue)) (rs : List (Int × JsValue))
    (mapping : Option (List ApiResponseMapping)) : List (String × JsValue) :=
  match mapping with
  | some ms => applyMappings rs ms formData
  | none => formData

/-- The Response Mapper output on its own (the mapping loop run on an
empty record), used to state the overlay precedence. -/
def extractMapped (rs : List (Int × JsValue)) (ms : List ApiResponseMapping) :
    List (String × JsValue) :=
  applyMappings rs ms []

example : computeRequestData [("a", JsValue.str "x")] [] none = [("a", JsValue.str "x")] := rfl

example :
    mappedValue [((0 : Int), JsValue.obj [("holder_name", JsValue.str "Jane Doe")])]
      { sourceField := "0.holder_name", targetParameter := "name" } =
    some (JsValue.str "Jane Doe") := rfl

/-- The request envelope `handleSubmit` posts to the `/api/proxy`
collaborator: `{ endpoint, method, headers, data }`. -/
structure ProxyRequest where
  endpoint : String
  method : HttpMethod
  headers : List (String × String)
  data : List (String × JsValue)

/-- Request construction in `handleSubmit` (workflow-test page, lines
72-85): endpoint and method copied from the current ApiConfig, the
headers reduced into one record (`{ ...acc, [header.key]: header.value }`),
and `data` the computed request data. -/
def buildProxyRequest (api : ApiConfig) (requestData : List (String × JsValue)) :
    ProxyRequest :=
  { endpoint := api.endpoint
    method := api.method
    headers := api.headers.foldl (fun acc h => setEntry acc h.key h.value) []
    data := requestData }

/-- Outcome of `await fetch('/api/proxy', ...)` followed by
`await response.json()` as the runner observes it: `response` is any
resolved HTTP response whose body parsed as JSON (including non-2xx
statuses, which `fetch` does not throw on); `transportError` is a
rejected `fetch`; `decodeError` is `response.json()` throwing. -/
inductive ProxyResult where
  | response : Nat → JsValue → ProxyResult
  | transportError : String → ProxyResult
  | decodeError : String → ProxyResult

/-- Whether a proxy outcome is a resolved, JSON-parsed HTTP response. -/
def ProxyResult.isResponse : ProxyResult → Bool
  | .response _ _ => true
  | .transportError _ => false
  | .decodeError _ => false

/-- The component state of `WorkflowTestPage` that `handleSubmit`
reads and writes: `currentStep`, `stepResponses`, `formData`, `error`
(the `loading` flag is transient UI state and always back to `false`
when `handleSubmit` returns). -/
structure RunnerState where
  currentStep : Nat
  stepResponses : List (Int × JsValue)
  formData : List (String × JsValue)
  error : Option String

/-- The initial `useState` values of the page: step 0, no responses,
empty form, no error. -/
def initialState : RunnerState :=
  { currentStep := 0, stepResponses := [], formData := [], error := none }

/-- `getCurrentApi` of the workflow-test page: `null` when the current
step index is out of range, else `apis.find(api => api.id === step.apiConfigId)`. -/
def getCurrentApi (wf : ApiWorkflow) (apis : List ApiConfig) (i : Nat) : Option ApiConfig :=
  match wf.steps[i]? with
  | none => none
  | some st => apis.find? (fun api => api.id == st.apiConfigId)

/-- The proxy request `handleSubmit` issues, `none` exactly when the
early guard `if (!workflow || !getCurrentApi()) return` fires. -/
def issuedRequest (wf : ApiWorkflow) (apis : List ApiConfig) (s : RunnerState) :
    Option ProxyRequest :=
  match wf.steps[s.currentStep]?, getCurrentApi wf apis s.currentStep with
  | some step, some api =>
    some (buildProxyRequest api
      (computeRequestData s.formData s.stepResponses step.responseMapping))
  | _, _ => none

/-- One invocation of `handleSubmit`, with the proxy collaborator as an
oracle.  A resolved JSON response of any HTTP status is stored in
`stepResponses[currentStep]` and, when a later step exists, the index
advances and the form clears; a thrown `fetch` or `json()` lands in the
`catch` block, which only records the error message. -/
def runStep (wf : ApiWorkflow) (apis : List ApiConfig)
    (proxy : ProxyRequest → ProxyResult) (s : RunnerState) : RunnerState :=
  match issuedRequest wf apis s with
  | none => s
  | some req =>
    match proxy req with
    | .response _ body =>
      let s1 : RunnerState :=
        { s with stepResponses := setEntry s.stepResponses (s.currentStep : Int) body
                 error := none }
      if s.currentStep < wf.steps.length - 1 then
        { s1 with currentStep := s.currentStep + 1, formData := [] }
      else s1
    | .transportError msg => { s with error := some msg }
    | .decodeError msg => { s with error := some msg }

/-- Iterated invocations of `handleSubmit` (the operator submits the
form `n` times in a row). -/
def runSteps (wf : ApiWorkflow) (apis : List ApiConfig)
    (proxy : ProxyRequest → ProxyResult) : Nat → RunnerState → RunnerState
  | 0, s => s
  | n + 1, s => runStep wf apis proxy (runSteps wf apis proxy n s)

/-- Observable content of the spec's `Finished` runner state: the index
rests on the last step and every step index has a recorded response
(the code keeps no explicit state tag). -/
def finishedState (wf : ApiWorkflow) (s : RunnerState) : Prop :=
  s.currentStep = wf.steps.length - 1 ∧
  ∀ i, i < wf.steps.length → (getEntry s.stepResponses (i : Int)).isSome = true

/-- Modelled from the spec: the `/api/proxy` route handler is not part
of the sources (only its callers are).  Per the spec the proxy accepts
`{ endpoint, method, headers, data }`, builds the outbound third-party
request, and GET requests must not carry a body; this definition gives
only the outbound body of that missing handler. -/
def proxyOutboundBody (req : ProxyRequest) : Option (List (String × JsValue)) :=
  if req.method = HttpMethod.GET then none else some req.data

/-- Index-value pairs of a list starting at index `k` (the implicit
index JavaScript array callbacks receive). -/
def enumFrom {α : Type} (k : Nat) : List α → List (Nat × α)
  | [] => []
  | a :: l => (k, a) :: enumFrom (k + 1) l

/-- `handleAddStep` of the workflow page: append a blank step whose
`order` is `steps.length + 1`. -/
def handleAddStep (steps : List WorkflowStep) : List WorkflowStep :=
  steps ++ [{ apiConfigId := "", order := steps.length + 1, responseMapping := some [] }]

/-- `handleRemoveStep` of the workflow page:
`steps.filter((_, i) => i !== index)` — positional removal with no
renumbering of the remaining orders. -/
def handleRemoveStep (steps : List WorkflowStep) (index : Nat) : List WorkflowStep :=
  ((enumFrom 0 steps).filter (fun p => p.1 != index)).map (fun p => p.2)

/-- Whether the orders of consecutive steps count up from `k`. -/
def ordersFrom (k : Nat) : List WorkflowStep → Bool
  | [] => true
  | st :: rest => st.order == k && ordersFrom (k + 1) rest

/-- The spec's invariant: step order numbers are contiguous starting
at 1. -/
def contiguousOrders (steps : List WorkflowStep) : Bool :=
  ordersFrom 1 steps

/-- The in-use recomputation in the workflow page's `useEffect`:
`savedWorkflows.some(w => w.steps.some(step => step.apiConfigId === api.id))`. -/
def apiInUse (saved : List ApiWorkflow) (apiId : String) : Bool :=
  saved.any (fun w => w.steps.any (fun st => st.apiConfigId == apiId))

/-- The `savedApis.map` in the same `useEffect`: each ApiConfig gets its
`isPartOfWorkflow` flag set from the saved workflows. -/
def markApisInWorkflows (savedApis : List ApiConfig) (saved : List ApiWorkflow) :
    List ApiConfig :=
  savedApis.map (fun api => { api with isPartOfWorkflow := some (apiInUse saved api.id) })

/-- The `disabled` attribute of an API option in the step dropdown
(workflow page, line 210):
`api.isPartOfWorkflow && !workflow.steps?.some(s => s.apiConfigId === api.id)`
(a missing flag is falsy). -/
def optionDisabled (draftSteps : List WorkflowStep) (api : ApiConfig) : Bool :=
  api.isPartOfWorkflow.getD false &&
    !(draftSteps.any (fun s => s.apiConfigId == api.id))

/-- Whether a workflow has a step referencing the given ApiConfig id. -/
def referencesApi (w : ApiWorkflow) (apiId : String) : Bool :=
  w.steps.any (fun st => st.apiConfigId == apiId)

/-- Two workflows share no referenced ApiConfig. -/
def noSharedApi (w1 w2 : ApiWorkflow) : Prop :=
  ∀ st ∈ w1.steps, referencesApi w2 st.apiConfigId = false

/-- Every ApiConfig is referenced by at most one of the saved
workflows. -/
def usedByAtMostOneWorkflow (saved : List ApiWorkflow) : Prop :=
  List.Pairwise noSharedApi saved

/-- Reading back the key just assigned yields the assigned value. -/
theorem getEntry_setEntry_self {κ α : Type} [DecidableEq κ]
    (l : List (κ × α)) (k : κ) (v : α) :
    getEntry (setEntry l k v) k = some v := by
  induction l with
  | nil => simp [setEntry, getEntry]
  | cons p rest ih =>
    obtain ⟨k', v'⟩ := p
    by_cases h : k' = k
    · simp [setEntry, getEntry, h]
    · simp [setEntry, getEntry, h, ih]

/-- Assignment to one key leaves every other key unchanged. -/
theorem getEntry_setEntry_ne {κ α : Type} [DecidableEq κ]
    (l : List (κ × α)) (k k' : κ) (v : α) (h : k ≠ k') :
    getEntry (setEntry l k v) k' = getEntry l k' := by
  induction l with
  | nil => simp [setEntry, getEntry, h]
  | cons p rest ih =>
    obtain ⟨k'', v''⟩ := p
    by_cases h2 : k'' = k
    · subst h2
      simp [setEntry, getEntry, h]
    · simp only [setEntry, if_neg h2, getEntry]
      by_cases h3 : k'' = k'
      · simp [h3]
      · simp [h3, ih]

/-- A skipped mapping (no truthy prior response) leaves the record
unchanged. -/
theorem applyOneMapping_none (rs : List (Int × JsValue))
    (rd : List (String × JsValue)) (m : ApiResponseMapping)
    (h : mappedValue rs m = none) : applyOneMapping rs rd m = rd := by
  simp [applyOneMapping, h]

/-- An applied mapping assigns the extracted value to its target. -/
theorem applyOneMapping_some (rs : List (Int × JsValue))
    (rd : List (String × JsValue)) (m : ApiResponseMapping) (v : JsValue)
    (h : mappedValue rs m = some v) :
    applyOneMapping rs rd m = setEntry rd m.targetParameter v := by
  simp [applyOneMapping, h]

/-- Unfolding one iteration of the mapping loop. -/
theorem applyMappings_cons (rs : List (Int × JsValue)) (m : ApiResponseMapping)
    (ms : List ApiResponseMapping) (rd : List (String × JsValue)) :
    applyMappings rs (m :: ms) rd = applyMappings rs ms (applyOneMapping rs rd m) := rfl

/-- The mapping loop started from `requestData` agrees, key for key,
with the loop's own output (started from an empty record) overlaid on
`requestData`: a mapped value wins over any pre-existing value. -/
theorem getEntry_applyMappings (rs : List (Int × JsValue))
    (ms : List ApiResponseMapping) (k : String) :
    ∀ rd, getEntry (applyMappings rs ms rd) k =
      Option.or (getEntry (applyMappings rs ms []) k) (getEntry rd k) := by
  induction ms with
  | nil =>
    intro rd
    simp [applyMappings, getEntry]
  | cons m ms ih =>
    intro rd
    rw [applyMappings_cons, applyMappings_cons, ih (applyOneMapping rs rd m),
      ih (applyOneMapping rs [] m), Option.or_assoc]
    congr 1
    cases hmv : mappedValue rs m with
    | none =>
      rw [applyOneMapping_none rs rd m hmv, applyOneMapping_none rs [] m hmv]
      simp [getEntry]
    | some v =>
      rw [applyOneMapping_some rs rd m v hmv, applyOneMapping_some rs [] m v hmv]
      by_cases hk : m.targetParameter = k
      · subst hk
        rw [getEntry_setEntry_self, getEntry_setEntry_self]
        rfl
      · rw [getEntry_setEntry_ne _ _ _ _ hk, getEntry_setEntry_ne _ _ _ _ hk]
        simp [getEntry]

/-- Key-level description of `requestData` in `handleSubmit`: the
Response Mapper output overlaid on the user-entered form values, with
mapped values taking precedence and nothing else contributing. -/
theorem getEntry_computeRequestData (fd : List (String × JsValue))
    (rs : List (Int × JsValue)) (mapping : Option (List ApiResponseMapping))
    (k : String) :
    getEntry (computeRequestData fd rs mapping) k =
      Option.or (getEntry (extractMapped rs (mapping.getD [])) k) (getEntry fd k) := by
  cases mapping with
  | none => simp [computeRequestData, extractMapped, applyMappings, getEntry]
  | some ms =>
    simp only [computeRequestData, extractMapped, Option.getD_some]
    exact getEntry_applyMappings rs ms k fd

/-- The mapping loop never touches a key targeted by no mapping. -/
theorem getEntry_applyMappings_of_no_target (rs : List (Int × JsValue)) (k : String) :
    ∀ ms : List ApiResponseMapping, (∀ m ∈ ms, m.targetParameter ≠ k) →
      ∀ rd, getEntry (applyMappings rs ms rd) k = getEntry rd k := by
  intro ms
  induction ms with
  | nil =>
    intro _ rd
    simp [applyMappings]
  | cons m ms ih =>
    intro h rd
    have hm := h m (List.mem_cons_self m ms)
    have hrest : ∀ m' ∈ ms, m'.targetParameter ≠ k := fun m' hm' =>
      h m' (List.mem_cons_of_mem m hm')
    rw [applyMappings_cons]
    cases hmv : mappedValue rs m with
    | none =>
      rw [applyOneMapping_none rs rd m hmv]
      exact ih hrest rd
    | some v =>
      rw [applyOneMapping_some rs rd m v hmv, ih hrest _]
      exact getEntry_setEntry_ne _ _ _ _ hm

/-- A key targeted by no mapping is absent from the Response Mapper
output. -/
theorem getEntry_extractMapped_of_no_target (rs : List (Int × JsValue))
    (ms : List ApiResponseMapping) (k : String)
    (h : ∀ m ∈ ms, m.targetParameter ≠ k) :
    getEntry (extractMapped rs ms) k = none := by
  rw [extractMapped, getEntry_applyMappings_of_no_target rs k ms h]
  rfl

/-- First step of the C1 scenario: a POST whose response supplies
`name`. -/
def apiC1a : ApiConfig :=
  { id := "api1", name := "Verify PAN", description := "", endpoint := "/verify/pan"
    method := HttpMethod.POST, headers := [], parameters := [] }

/-- Second step of the C1 scenario: `name` is mapped from step 0 and
`amount` has a configured default of `"5"`. -/
def apiC1b : ApiConfig :=
  { id := "api2", name := "AML Check", description := "", endpoint := "/aml-check"
    method := HttpMethod.POST, headers := []
    parameters :=
      [{ name := "name", type := ParameterType.string,
         location := ParameterLocation.body, isRequired := true },
       { name := "amount", type := ParameterType.number,
         location := ParameterLocation.body, isRequired := true,
         defaultValue := some "5" }] }

/-- The single response mapping of the C1 scenario. -/
def mC1 : ApiResponseMapping := { sourceField := "0.name", targetParameter := "name" }

/-- Second workflow step of the C1 scenario. -/
def stepC1b : WorkflowStep :=
  { apiConfigId := "api2", order := 2, responseMapping := some [mC1] }

/-- Two-step workflow of the C1 scenario. -/
def wfC1 : ApiWorkflow :=
  { id := "wf1", name := "flow", description := ""
    steps := [{ apiConfigId := "api1", order := 1 }, stepC1b] }

/-- The saved ApiConfigs of the C1 scenario. -/
def apisC1 : List ApiConfig := [apiC1a, apiC1b]

/-- Runner state of the C1 scenario: step 0 already answered with
`name = "mapped"`, and the user has typed `name = "user"` into the
step-1 form. -/
def sC1 : RunnerState :=
  { currentStep := 1
    stepResponses := [((0 : Int), JsValue.obj [("name", JsValue.str "mapped")])]
    formData := [("name", JsValue.str "user")]
    error := none }

/-- C1, counterexample: with both a user-entered value and a mapped
value for `name`, the issued request carries the mapped value, not the
user value; and the `amount` parameter, which has only a configured
default, is absent from the request.  The claim predicts the user value
and the presence of the default. -/
theorem c1_counterexample :
    (issuedRequest wfC1 apisC1 sC1).map (fun req => getEntry req.data "name") =
      some (some (JsValue.str "mapped")) ∧
    (issuedRequest wfC1 apisC1 sC1).map (fun req => getEntry req.data "amount") =
      some none ∧
    JsValue.str "mapped" ≠ JsValue.str "user" := by
  refine ⟨rfl, rfl, ?_⟩
  intro h
  injection h with h'
  exact absurd h' (by decide)

/-- C1, amended: for every workflow step, each input value of the
issued request is the Response Mapper output for the step's declared
mappings overlaid on the user-entered form values, with mapped values
taking the highest precedence and user input below them; configured
parameter defaults are never consulted and contribute nothing. -/
theorem c1_request_merge (wf : ApiWorkflow) (apis : List ApiConfig) (s : RunnerState)
    (step : WorkflowStep) (api : ApiConfig) (p : String)
    (hstep : wf.steps[s.currentStep]? = some step)
    (hapi : getCurrentApi wf apis s.currentStep = some api) :
    (issuedRequest wf apis s).map (fun req => getEntry req.data p) =
      some (Option.or
        (getEntry (extractMapped s.stepResponses (step.responseMapping.getD [])) p)
        (getEntry s.formData p)) := by
  simp only [issuedRequest, hstep, hapi, Option.map_some', buildProxyRequest]
  rw [getEntry_computeRequestData]

/-- C1 witness: the amended merge rule evaluated in the concrete C1
scenario at the key `name`. -/
theorem c1_witness :
    (issuedRequest wfC1 apisC1 sC1).map (fun req => getEntry req.data "name") =
      some (Option.or
        (getEntry (extractMapped sC1.stepResponses (stepC1b.responseMapping.getD [])) "name")
        (getEntry sC1.formData "name")) :=
  c1_request_merge wfC1 apisC1 sC1 stepC1b apiC1b "name" rfl rfl

/-- An ApiConfig of the C2 scenario. -/
def apiC2a : ApiConfig :=
  { id := "a1", name := "first", description := "", endpoint := "/one"
    method := HttpMethod.POST, headers := [], parameters := [] }

/-- The second ApiConfig of the C2 scenario. -/
def apiC2b : ApiConfig :=
  { id := "a2", name := "second", description := "", endpoint := "/two"
    method := HttpMethod.POST, headers := [], parameters := [] }

/-- Two-step workflow of the C2 scenario. -/
def wfC2 : ApiWorkflow :=
  { id := "wf2", name := "flow2", description := ""
    steps := [{ apiConfigId := "a1", order := 1 }, { apiConfigId := "a2", order := 2 }] }

/-- The saved ApiConfigs of the C2 scenario. -/
def apisC2 : List ApiConfig := [apiC2a, apiC2b]

/-- The error body a failing upstream would hand back through the
proxy with HTTP status 500. -/
def errBodyC2 : JsValue := JsValue.obj [("error", JsValue.str "Internal Server Error")]

/-- C2, counterexample: at step 0 of a two-step workflow the proxy
resolves with HTTP status 500 and a JSON error body; `handleSubmit`
nevertheless records the body as step 0's response and advances to
step 1, where the claim requires the terminal state `Failed(0)` with no
advance. -/
theorem c2_counterexample :
    (runStep wfC2 apisC2 (fun _ => ProxyResult.response 500 errBodyC2)
        initialState).currentStep = 1 ∧
    getEntry (runStep wfC2 apisC2 (fun _ => ProxyResult.response 500 errBodyC2)
        initialState).stepResponses (0 : Int) = some errBodyC2 ∧
    (runStep wfC2 apisC2 (fun _ => ProxyResult.response 500 errBodyC2)
        initialState).error = none :=
  ⟨rfl, rfl, rfl⟩

/-- C2, amended: only a rejected `fetch` (transport failure) or a
throwing `response.json()` (decode failure) halts the runner: the step
index and recorded responses are unchanged, the error message is
surfaced, and re-invoking `runStep` issues the very same request for
the same step; nothing retries automatically.  A resolved HTTP response
of any status — non-2xx included — is stored as the step's response and
the runner advances exactly as on success. -/
theorem c2_failure_semantics (wf : ApiWorkflow) (apis : List ApiConfig)
    (proxy : ProxyRequest → ProxyResult) (s : RunnerState) (req : ProxyRequest)
    (msg : String)
    (hreq : issuedRequest wf apis s = some req)
    (herr : proxy req = ProxyResult.transportError msg ∨
            proxy req = ProxyResult.decodeError msg) :
    (runStep wf apis proxy s).currentStep = s.currentStep ∧
    (runStep wf apis proxy s).stepResponses = s.stepResponses ∧
    (runStep wf apis proxy s).error = some msg ∧
    issuedRequest wf apis (runStep wf apis proxy s) = some req ∧
    ∀ (proxy2 : ProxyRequest → ProxyResult) (st : Nat) (b : JsValue),
      proxy2 req = ProxyResult.response st b →
      getEntry (runStep wf apis proxy2 s).stepResponses ((s.currentStep : Int)) = some b ∧
      (s.currentStep + 1 < wf.steps.length →
        (runStep wf apis proxy2 s).currentStep = s.currentStep + 1) := by
  have hfail : runStep wf apis proxy s = { s with error := some msg } := by
    rcases herr with h | h <;> simp [runStep, hreq, h]
  refine ⟨by rw [hfail], by rw [hfail], by rw [hfail], by rw [hfail]; exact hreq, ?_⟩
  intro proxy2 st b hresp
  have hok : runStep wf apis proxy2 s =
      if s.currentStep < wf.steps.length - 1 then
        { s with stepResponses := setEntry s.stepResponses (s.currentStep : Int) b
                 error := none
                 currentStep := s.currentStep + 1
                 formData := [] }
      else
        { s with stepResponses := setEntry s.stepResponses (s.currentStep : Int) b
                 error := none } := by
    simp [runStep, hreq, hresp]
  constructor
  · rw [hok]
    by_cases hlt : s.currentStep < wf.steps.length - 1 <;>
      simp [hlt, getEntry_setEntry_self]
  · intro hnext
    have hlt : s.currentStep < wf.steps.length - 1 := by omega
    rw [hok]
    simp [hlt]

/-- The request issued at step 0 of the C2 scenario. -/
def reqC2 : ProxyRequest :=
  { endpoint := "/one", method := HttpMethod.POST, headers := [], data := [] }

/-- C2 witness: the amended failure semantics evaluated in the concrete
C2 scenario, with a transport failure first and a successful re-run
after it. -/
theorem c2_witness :
    (runStep wfC2 apisC2 (fun _ => ProxyResult.transportError "Failed to fetch")
        initialState).currentStep = 0 ∧
    (runStep wfC2 apisC2 (fun _ => ProxyResult.transportError "Failed to fetch")
        initialState).stepResponses = [] ∧
    (runStep wfC2 apisC2 (fun _ => ProxyResult.transportError "Failed to fetch")
        initialState).error = some "Failed to fetch" ∧
    getEntry (runStep wfC2 apisC2 (fun _ => ProxyResult.response 200 errBodyC2)
        initialState).stepResponses (0 : Int) = some errBodyC2 := by
  have h := c2_failure_semantics wfC2 apisC2
    (fun _ => ProxyResult.transportError "Failed to fetch") initialState reqC2
    "Failed to fetch" rfl (Or.inl rfl)
  exact ⟨h.1, h.2.1, h.2.2.1,
    (h.2.2.2.2 (fun _ => ProxyResult.response 200 errBodyC2) 200 errBodyC2 rfl).1⟩

/-- Step-0 response of the C3 scenario: it owns both a literal key
`"a.b"` and a key `"a"`. -/
def rC3 : JsValue :=
  JsValue.obj [("a.b", JsValue.str "full"), ("a", JsValue.str "second")]

/-- Prior responses of the C3 scenario. -/
def rsC3 : List (Int × JsValue) := [((0 : Int), rC3)]

/-- A mapping whose source path contains two separators. -/
def mC3 : ApiResponseMapping := { sourceField := "0.a.b", targetParameter := "t" }

/-- C3, counterexample: for the source path `"0.a.b"` the code reads
property `"a"` (the segment between the first and second separators),
yielding `"second"`; the claim predicts property `"a.b"` (everything
after the first separator), whose value is `"full"`. -/
theorem c3_counterexample :
    mappedValue rsC3 mC3 = some (JsValue.str "second") ∧
    JsValue.getProp ((getEntry rsC3 (0 : Int)).getD JsValue.undefined) "a.b" =
      JsValue.str "full" ∧
    JsValue.str "second" ≠ JsValue.str "full" := by
  refine ⟨rfl, rfl, ?_⟩
  intro h
  injection h with h'
  exact absurd h' (by decide)

/-- C3, amended: the mapper splits the source field path on every
separator and uses the second segment (the text between the first and
second separators) as the field name; the mapped value placed in the
next step's request equals `StepResponse[stepIndex][fieldName]`
exactly, as a single-level property access with no coercion. -/
theorem c3_mapping_extraction (rs : List (Int × JsValue)) (m : ApiResponseMapping)
    (iStr f : String) (rest : List String) (i : Int) (r : JsValue)
    (hsplit : jsSplit m.sourceField '.' = iStr :: f :: rest)
    (hparse : jsParseInt iStr = some i)
    (hresp : getEntry rs i = some r)
    (htruthy : r.truthy = true) :
    mappedValue rs m = some (r.getProp f) ∧
    ∀ fd : List (String × JsValue),
      getEntry (computeRequestData fd rs (some [m])) m.targetParameter =
        some (r.getProp f) := by
  have hmv : mappedValue rs m = some (r.getProp f) := by
    simp only [mappedValue, hsplit, List.headD_cons, List.getElem?_cons_succ,
      List.getElem?_cons_zero, Option.getD_some, lookupPriorResponse, hparse,
      hresp, htruthy, if_true]
  refine ⟨hmv, ?_⟩
  intro fd
  have h1 : computeRequestData fd rs (some [m]) =
      setEntry fd m.targetParameter (r.getProp f) := by
    simp only [computeRequestData, applyMappings, List.foldl_cons, List.foldl_nil]
    exact applyOneMapping_some rs fd m _ hmv
  rw [h1, getEntry_setEntry_self]

/-- C3 witness: the amended extraction rule evaluated on the concrete
C3 scenario, with the request-level conclusion taken at an empty form. -/
theorem c3_witness :
    mappedValue rsC3 mC3 = some (rC3.getProp "a") ∧
    getEntry (computeRequestData [] rsC3 (some [mC3])) "t" =
      some (rC3.getProp "a") := by
  have h := c3_mapping_extraction rsC3 mC3 "0" "a" ["b"] 0 rC3 rfl rfl rfl rfl
  exact ⟨h.1, h.2 []⟩

/-- C4: a mapping whose step index has no entry in the prior-responses
table contributes nothing — `mappedValue` is `none` — and a request all
of whose mappings are omitted this way is exactly the form data, so the
downstream request proceeds without the mapped parameter.  Re-running
against the same responses table is the same pure evaluation, so the
omission repeats until that step's response exists. -/
theorem c4_missing_step_omitted (rs : List (Int × JsValue)) (m : ApiResponseMapping)
    (iStr : String) (rest : List String) (i : Int)
    (hsplit : jsSplit m.sourceField '.' = iStr :: rest)
    (hparse : jsParseInt iStr = some i)
    (habsent : getEntry rs i = none) :
    mappedValue rs m = none ∧
    ∀ (fd : List (String × JsValue)) (ms : List ApiResponseMapping),
      (∀ m' ∈ ms, mappedValue rs m' = none) →
      computeRequestData fd rs (some ms) = fd := by
  constructor
  · simp only [mappedValue, hsplit, List.headD_cons, lookupPriorResponse, hparse,
      habsent, Option.getD_none]
    simp [JsValue.truthy]
  · intro fd ms
    induction ms with
    | nil =>
      intro _
      rfl
    | cons m' ms' ih =>
      intro hnone
      have h1 := hnone m' (List.mem_cons_self m' ms')
      have hrest : ∀ m'' ∈ ms', mappedValue rs m'' = none := fun m'' hm'' =>
        hnone m'' (List.mem_cons_of_mem m' hm'')
      have : computeRequestData fd rs (some (m' :: ms')) =
          computeRequestData fd rs (some ms') := by
        simp only [computeRequestData, applyMappings_cons,
          applyOneMapping_none rs fd m' h1]
      rw [this]
      exact ih hrest

/-- The mapping of the C4 witness scenario: it references step 0, which
has not yet executed. -/
def mC4 : ApiResponseMapping := { sourceField := "0.name", targetParameter := "name" }

/-- C4 witness: against an empty prior-responses table the mapping
contributes nothing and the request equals the form data unchanged. -/
theorem c4_witness :
    mappedValue [] mC4 = none ∧
    computeRequestData [("x", JsValue.str "1")] [] (some [mC4]) =
      [("x", JsValue.str "1")] := by
  have h := c4_missing_step_omitted [] mC4 "0" ["name"] 0 rfl rfl rfl
  refine ⟨h.1, h.2 [("x", JsValue.str "1")] [mC4] ?_⟩
  intro m' hm'
  rw [List.mem_singleton] at hm'
  subst hm'
  exact h.1

/-- The required parameter of the C5 scenario: no default value and no
mapping targets it. -/
def pC5 : ApiParameter :=
  { name := "pan", type := ParameterType.string,
    location := ParameterLocation.body, isRequired := true }

/-- The ApiConfig of the C5 scenario. -/
def apiC5 : ApiConfig :=
  { id := "a5", name := "PAN check", description := "", endpoint := "/verify/pan"
    method := HttpMethod.POST, headers := [], parameters := [pC5] }

/-- Single-step workflow of the C5 scenario (no response mappings). -/
def wfC5 : ApiWorkflow :=
  { id := "wf5", name := "flow5", description := ""
    steps := [{ apiConfigId := "a5", order := 1 }] }

/-- The saved ApiConfigs of the C5 scenario. -/
def apisC5 : List ApiConfig := [apiC5]

/-- The body the proxy resolves with in the C5 scenario. -/
def okBodyC5 : JsValue := JsValue.obj [("ok", JsValue.bool true)]

/-- C5, counterexample: with the required parameter `pan` missing from
the form (no default, no mapping), `handleSubmit` still issues the
request — with `pan` simply absent — and the proxy's response is
recorded with no error, where the claim requires a `ValidationError`
before any network call and no request at all. -/
theorem c5_counterexample :
    (issuedRequest wfC5 apisC5 initialState).map (fun req => getEntry req.data "pan") =
      some none ∧
    (runStep wfC5 apisC5 (fun _ => ProxyResult.response 200 okBodyC5)
        initialState).stepResponses = [((0 : Int), okBodyC5)] ∧
    (runStep wfC5 apisC5 (fun _ => ProxyResult.response 200 okBodyC5)
        initialState).error = none :=
  ⟨rfl, rfl, rfl⟩

/-- C5, amended: the runner performs no input validation.  Even for a
required parameter with no default value, no mapping targeting it, and
no caller-supplied form value, the request is issued to the proxy
collaborator, with that parameter simply absent from the payload; no
`ValidationError` exists in the code (the only guard is the HTML
`required` attribute on the rendered input, which the browser, not this
code, enforces). -/
theorem c5_no_validation (wf : ApiWorkflow) (apis : List ApiConfig) (s : RunnerState)
    (step : WorkflowStep) (api : ApiConfig) (p : ApiParameter)
    (hstep : wf.steps[s.currentStep]? = some step)
    (hapi : getCurrentApi wf apis s.currentStep = some api)
    (hmem : p ∈ api.parameters)
    (hreqd : p.isRequired = true)
    (hdef : p.defaultValue = none)
    (hnomap : ∀ m ∈ step.responseMapping.getD [], m.targetParameter ≠ p.name)
    (hform : getEntry s.formData p.name = none) :
    (issuedRequest wf apis s).map (fun req => getEntry req.data p.name) =
      some none := by
  simp only [issuedRequest, hstep, hapi, Option.map_some', buildProxyRequest]
  rw [getEntry_computeRequestData,
    getEntry_extractMapped_of_no_target _ _ _ hnomap, hform]
  rfl

/-- C5 witness: the amended no-validation behaviour evaluated in the
concrete C5 scenario. -/
theorem c5_witness :
    (issuedRequest wfC5 apisC5 initialState).map (fun req => getEntry req.data pC5.name) =
      some none :=
  c5_no_validation wfC5 apisC5 initialState
    { apiConfigId := "a5", order := 1 } apiC5 pC5 rfl rfl
    (List.mem_singleton.mpr rfl) rfl rfl
    (fun m hm => absurd hm (List.not_mem_nil m)) rfl

/-- C6: for a GET-method ApiDefinition the outbound request built by
the (spec-modelled) proxy collaborator carries no body, whatever data
record the runner passed along — in particular whatever body-located
parameters were configured. -/
theorem c6_get_no_body (api : ApiConfig) (rd : List (String × JsValue))
    (h : api.method = HttpMethod.GET) :
    proxyOutboundBody (buildProxyRequest api rd) = none := by
  simp [proxyOutboundBody, buildProxyRequest, h]

/-- A GET-method ApiConfig with a body-located parameter, for the C6
witness. -/
def apiC6 : ApiConfig :=
  { id := "a6", name := "RC lookup", description := "", endpoint := "/rc-challan"
    method := HttpMethod.GET, headers := []
    parameters :=
      [{ name := "rc", type := ParameterType.string,
         location := ParameterLocation.body, isRequired := true }] }

/-- C6 witness: the GET request of the concrete C6 scenario, sent with
a non-empty data record, has no outbound body. -/
theorem c6_witness :
    proxyOutboundBody (buildProxyRequest apiC6 [("rc", JsValue.str "KA01")]) = none :=
  c6_get_no_body apiC6 [("rc", JsValue.str "KA01")] rfl

/-- Closed form of `runStep` when the current step and its ApiConfig
resolve and the proxy hands back a parsed HTTP response. -/
theorem runStep_success (wf : ApiWorkflow) (apis : List ApiConfig)
    (proxy : ProxyRequest → ProxyResult) (s : RunnerState)
    (step : WorkflowStep) (api : ApiConfig) (st : Nat) (b : JsValue)
    (hstep : wf.steps[s.currentStep]? = some step)
    (hapi : getCurrentApi wf apis s.currentStep = some api)
    (hresp : proxy (buildProxyRequest api
      (computeRequestData s.formData s.stepResponses step.responseMapping)) =
      ProxyResult.response st b) :
    runStep wf apis proxy s =
      if s.currentStep < wf.steps.length - 1 then
        { s with stepResponses := setEntry s.stepResponses (s.currentStep : Int) b
                 error := none
                 currentStep := s.currentStep + 1
                 formData := [] }
      else
        { s with stepResponses := setEntry s.stepResponses (s.currentStep : Int) b
                 error := none } := by
  simp [runStep, issuedRequest, hstep, hapi, hresp]

/-- Invariant of a run whose proxy always resolves: after `k`
submissions the index sits at `min k (n-1)` and the first `k` step
indices all have recorded responses. -/
theorem runSteps_invariant (wf : ApiWorkflow) (apis : List ApiConfig)
    (proxy : ProxyRequest → ProxyResult)
    (hapi : ∀ i, i < wf.steps.length → (getCurrentApi wf apis i).isSome = true)
    (hproxy : ∀ req, (proxy req).isResponse = true) :
    ∀ k, k ≤ wf.steps.length →
      (runSteps wf apis proxy k initialState).currentStep =
        min k (wf.steps.length - 1) ∧
      ∀ i, i < k →
        (getEntry (runSteps wf apis proxy k initialState).stepResponses
          (i : Int)).isSome = true := by
  intro k
  induction k with
  | zero =>
    intro _
    constructor
    · simp [runSteps, initialState]
    · intro i hi
      exact absurd hi (Nat.not_lt_zero i)
  | succ k ih =>
    intro hk1
    have hk : k < wf.steps.length := by omega
    obtain ⟨hcur, hrespAll⟩ := ih (by omega)
    have hcur' : (runSteps wf apis proxy k initialState).currentStep = k := by
      rw [hcur]; omega
    have hstepSome : (wf.steps[k]?).isSome = true := by
      rw [List.getElem?_eq_getElem hk]
      rfl
    obtain ⟨step, hstep⟩ := Option.isSome_iff_exists.mp hstepSome
    obtain ⟨api, hapix⟩ := Option.isSome_iff_exists.mp (hapi k hk)
    have hstep' : wf.steps[(runSteps wf apis proxy k initialState).currentStep]? =
        some step := by rw [hcur']; exact hstep
    have hapix' : getCurrentApi wf apis
        (runSteps wf apis proxy k initialState).currentStep = some api := by
      rw [hcur']; exact hapix
    have hrun : runSteps wf apis proxy (k + 1) initialState =
        runStep wf apis proxy (runSteps wf apis proxy k initialState) := rfl
    cases hprx : proxy (buildProxyRequest api
        (computeRequestData (runSteps wf apis proxy k initialState).formData
          (runSteps wf apis proxy k initialState).stepResponses
          step.responseMapping)) with
    | transportError msg =>
      have := hproxy (buildProxyRequest api
        (computeRequestData (runSteps wf apis proxy k initialState).formData
          (runSteps wf apis proxy k initialState).stepResponses
          step.responseMapping))
      rw [hprx] at this
      simp [ProxyResult.isResponse] at this
    | decodeError msg =>
      have := hproxy (buildProxyRequest api
        (computeRequestData (runSteps wf apis proxy k initialState).formData
          (runSteps wf apis proxy k initialState).stepResponses
          step.responseMapping))
      rw [hprx] at this
      simp [ProxyResult.isResponse] at this
    | response st b =>
      have hrs := runStep_success wf apis proxy
        (runSteps wf apis proxy k initialState) step api st b hstep' hapix' hprx
      rw [hrun, hrs]
      have hentries : ∀ i, i < k + 1 →
          (getEntry (setEntry (runSteps wf apis proxy k initialState).stepResponses
            ((runSteps wf apis proxy k initialState).currentStep : Int) b)
            (i : Int)).isSome = true := by
        intro i hi
        rw [hcur']
        by_cases hik : i = k
        · subst hik
          rw [getEntry_setEntry_self]
          rfl
        · have hne : ((k : Nat) : Int) ≠ ((i : Nat) : Int) := by omega
          rw [getEntry_setEntry_ne _ _ _ _ hne]
          exact hrespAll i (by omega)
      by_cases hlt : (runSteps wf apis proxy k initialState).currentStep <
          wf.steps.length - 1
      · rw [if_pos hlt]
        constructor
        · simp only [hcur']
          rw [hcur'] at hlt
          omega
        · intro i hi
          exact hentries i hi
      · rw [if_neg hlt]
        constructor
        · simp only [hcur']
          rw [hcur'] at hlt
          omega
        · intro i hi
          exact hentries i hi

/-- C7: with every step's ApiConfig resolvable and a proxy that always
hands back a parsed response, submitting the form once per step
populates a response for every step index and ends with the index on
the last step (the observable `Finished` state); each non-final
successful submission advances the index by one and clears the form. -/
theorem c7_run_to_completion (wf : ApiWorkflow) (apis : List ApiConfig)
    (proxy : ProxyRequest → ProxyResult)
    (h0 : 0 < wf.steps.length)
    (hapi : ∀ i, i < wf.steps.length → (getCurrentApi wf apis i).isSome = true)
    (hproxy : ∀ req, (proxy req).isResponse = true) :
    finishedState wf (runSteps wf apis proxy wf.steps.length initialState) ∧
    ∀ s : RunnerState, s.currentStep + 1 < wf.steps.length →
      (runStep wf apis proxy s).currentStep = s.currentStep + 1 ∧
      (runStep wf apis proxy s).formData = [] := by
  constructor
  · obtain ⟨hcur, hrespAll⟩ :=
      runSteps_invariant wf apis proxy hapi hproxy wf.steps.length (Nat.le_refl _)
    refine ⟨?_, ?_⟩
    · rw [hcur]; omega
    · intro i hi
      exact hrespAll i hi
  · intro s hs
    have hk : s.currentStep < wf.steps.length := by omega
    have hstepSome : (wf.steps[s.currentStep]?).isSome = true := by
      rw [List.getElem?_eq_getElem hk]
      rfl
    obtain ⟨step, hstep⟩ := Option.isSome_iff_exists.mp hstepSome
    obtain ⟨api, hapix⟩ := Option.isSome_iff_exists.mp (hapi s.currentStep hk)
    cases hprx : proxy (buildProxyRequest api
        (computeRequestData s.formData s.stepResponses step.responseMapping)) with
    | transportError msg =>
      have := hproxy (buildProxyRequest api
        (computeRequestData s.formData s.stepResponses step.responseMapping))
      rw [hprx] at this
      simp [ProxyResult.isResponse] at this
    | decodeError msg =>
      have := hproxy (buildProxyRequest api
        (computeRequestData s.formData s.stepResponses step.responseMapping))
      rw [hprx] at this
      simp [ProxyResult.isResponse] at this
    | response st b =>
      have hrs := runStep_success wf apis proxy s step api st b hstep hapix hprx
      have hlt : s.currentStep < wf.steps.length - 1 := by omega
      rw [hrs, if_pos hlt]
      exact ⟨rfl, rfl⟩

/-- First ApiConfig of the C7 scenario. -/
def apiC7a : ApiConfig :=
  { id := "b1", name := "one", description := "", endpoint := "/one"
    method := HttpMethod.POST, headers := [], parameters := [] }

/-- Second ApiConfig of the C7 scenario. -/
def apiC7b : ApiConfig :=
  { id := "b2", name := "two", description := "", endpoint := "/two"
    method := HttpMethod.POST, headers := [], parameters := [] }

/-- Two-step workflow of the C7 scenario. -/
def wfC7 : ApiWorkflow :=
  { id := "wf7", name := "flow7", description := ""
    steps := [{ apiConfigId := "b1", order := 1 }, { apiConfigId := "b2", order := 2 }] }

/-- The saved ApiConfigs of the C7 scenario. -/
def apisC7 : List ApiConfig := [apiC7a, apiC7b]

/-- An always-succeeding proxy for the C7 scenario. -/
def proxyC7 : ProxyRequest → ProxyResult :=
  fun _ => ProxyResult.response 200 (JsValue.obj [])

/-- C7 witness: the concrete two-step C7 scenario run to completion,
plus the advance-and-clear behaviour of its first submission. -/
theorem c7_witness :
    finishedState wfC7 (runSteps wfC7 apisC7 proxyC7 wfC7.steps.length initialState) ∧
    (runStep wfC7 apisC7 proxyC7 initialState).currentStep = 1 ∧
    (runStep wfC7 apisC7 proxyC7 initialState).formData = [] := by
  have h := c7_run_to_completion wfC7 apisC7 proxyC7 (by decide) (by decide)
    (fun _ => rfl)
  exact ⟨h.1, (h.2 initialState (by decide)).1, (h.2 initialState (by decide)).2⟩

/-- C8: a failed attempt at step i (thrown `fetch` or `json()`) leaves
the whole `stepResponses` table — in particular every prior step's
entry — and the step index untouched; from any state at the same step
with the same table (e.g. the parked state with corrected form input),
a re-invocation whose proxy resolves records the response under index i
and changes no other index. -/
theorem c8_failure_frame (wf : ApiWorkflow) (apis : List ApiConfig)
    (proxy : ProxyRequest → ProxyResult) (s : RunnerState) (req : ProxyRequest)
    (msg : String)
    (hreq : issuedRequest wf apis s = some req)
    (herr : proxy req = ProxyResult.transportError msg ∨
            proxy req = ProxyResult.decodeError msg) :
    (runStep wf apis proxy s).stepResponses = s.stepResponses ∧
    (runStep wf apis proxy s).currentStep = s.currentStep ∧
    ∀ s' : RunnerState, s'.currentStep = s.currentStep →
      s'.stepResponses = s.stepResponses →
      ∀ (proxy2 : ProxyRequest → ProxyResult) (req2 : ProxyRequest)
        (st : Nat) (b : JsValue),
        issuedRequest wf apis s' = some req2 →
        proxy2 req2 = ProxyResult.response st b →
        getEntry (runStep wf apis proxy2 s').stepResponses ((s.currentStep : Int)) =
          some b ∧
        ∀ j : Int, j ≠ (s.currentStep : Int) →
          getEntry (runStep wf apis proxy2 s').stepResponses j =
            getEntry s.stepResponses j := by
  have hfail : runStep wf apis proxy s = { s with error := some msg } := by
    rcases herr with h | h <;> simp [runStep, hreq, h]
  refine ⟨by rw [hfail], by rw [hfail], ?_⟩
  intro s' h1 h2 proxy2 req2 st b hreq2 hresp
  have hok : (runStep wf apis proxy2 s').stepResponses =
      setEntry s.stepResponses (s.currentStep : Int) b := by
    simp only [runStep, hreq2, hresp, h1, h2]
    split <;> rfl
  refine ⟨?_, ?_⟩
  · rw [hok, getEntry_setEntry_self]
  · intro j hj
    rw [hok, getEntry_setEntry_ne _ _ _ _ (Ne.symm hj)]

/-- First ApiConfig of the C8 scenario. -/
def apiC8a : ApiConfig :=
  { id := "c1", name := "one", description := "", endpoint := "/one8"
    method := HttpMethod.POST, headers := [], parameters := [] }

/-- Second ApiConfig of the C8 scenario. -/
def apiC8b : ApiConfig :=
  { id := "c2", name := "two", description := "", endpoint := "/two8"
    method := HttpMethod.POST, headers := [], parameters := [] }

/-- Two-step workflow of the C8 scenario. -/
def wfC8 : ApiWorkflow :=
  { id := "wf8", name := "flow8", description := ""
    steps := [{ apiConfigId := "c1", order := 1 }, { apiConfigId := "c2", order := 2 }] }

/-- The saved ApiConfigs of the C8 scenario. -/
def apisC8 : List ApiConfig := [apiC8a, apiC8b]

/-- The request issued at step 0 of the C8 scenario from an empty form. -/
def reqC8 : ProxyRequest :=
  { endpoint := "/one8", method := HttpMethod.POST, headers := [], data := [] }

/-- The request issued at step 0 of the C8 scenario after the operator
corrects the form. -/
def reqC8b : ProxyRequest :=
  { endpoint := "/one8", method := HttpMethod.POST, headers := []
    data := [("x", JsValue.str "1")] }

/-- An always-failing proxy for the C8 scenario. -/
def proxyFailC8 : ProxyRequest → ProxyResult :=
  fun _ => ProxyResult.transportError "boom"

/-- The response body of the successful C8 re-run. -/
def bodyC8 : JsValue := JsValue.obj [("done", JsValue.bool true)]

/-- An always-resolving proxy for the C8 re-run. -/
def proxyOkC8 : ProxyRequest → ProxyResult :=
  fun _ => ProxyResult.response 200 bodyC8

/-- The parked state of the C8 scenario after the failure, with
corrected form input. -/
def sRetryC8 : RunnerState :=
  { currentStep := 0, stepResponses := [], formData := [("x", JsValue.str "1")]
    error := some "boom" }

/-- C8 witness: the failure-frame property evaluated in the concrete
C8 scenario — the failed attempt changes nothing, and the corrected
re-run records step 0's response while index 1 stays as it was. -/
theorem c8_witness :
    (runStep wfC8 apisC8 proxyFailC8 initialState).stepResponses =
      initialState.stepResponses ∧
    (runStep wfC8 apisC8 proxyFailC8 initialState).currentStep =
      initialState.currentStep ∧
    getEntry (runStep wfC8 apisC8 proxyOkC8 sRetryC8).stepResponses
      ((initialState.currentStep : Int)) = some bodyC8 ∧
    getEntry (runStep wfC8 apisC8 proxyOkC8 sRetryC8).stepResponses (1 : Int) =
      getEntry initialState.stepResponses (1 : Int) := by
  have h := c8_failure_frame wfC8 apisC8 proxyFailC8 initialState reqC8 "boom"
    rfl (Or.inl rfl)
  have h3 := h.2.2 sRetryC8 rfl rfl proxyOkC8 reqC8b 200 bodyC8 rfl rfl
  exact ⟨h.1, h.2.1, h3.1, h3.2 1 (by decide)⟩

/-- Appending one step shifts the contiguity check to the appended
step's order. -/
theorem ordersFrom_append (st : WorkflowStep) :
    ∀ (l : List WorkflowStep) (k : Nat), ordersFrom k l = true →
      ordersFrom k (l ++ [st]) = (st.order == k + l.length) := by
  intro l
  induction l with
  | nil =>
    intro k _
    simp [ordersFrom]
  | cons s0 rest ih =>
    intro k h
    simp only [ordersFrom, Bool.and_eq_true] at h
    obtain ⟨h1, h2⟩ := h
    rw [List.cons_append]
    simp only [ordersFrom, h1, Bool.true_and]
    rw [ih (k + 1) h2, List.length_cons]
    congr 1
    omega

/-- A positional filter against an index below the enumeration range
keeps everything. -/
theorem enumFrom_filter_low {α : Type} :
    ∀ (l : List α) (k j : Nat), j < k →
      ((enumFrom k l).filter (fun p => p.1 != j)).map (fun p => p.2) = l := by
  intro l
  induction l with
  | nil =>
    intro k j _
    rfl
  | cons a rest ih =>
    intro k j hj
    have hne : (k != j) = true := by
      simp only [bne_iff_ne]
      omega
    simp only [enumFrom, List.filter_cons, hne, if_true, List.map_cons]
    rw [ih (k + 1) j (by omega)]

/-- The positional filter of `handleRemoveStep`, started at offset `k`
and aimed at absolute index `k + i`, removes the element at relative
index `i`. -/
theorem enumFrom_filter_eraseIdx {α : Type} :
    ∀ (l : List α) (k i : Nat),
      ((enumFrom k l).filter (fun p => p.1 != (k + i))).map (fun p => p.2) =
        l.eraseIdx i := by
  intro l
  induction l with
  | nil =>
    intro k i
    rfl
  | cons a rest ih =>
    intro k i
    cases i with
    | zero =>
      have h0 : (k != k + 0) = false := by simp
      simp only [enumFrom, List.filter_cons, h0, if_false, Bool.false_eq_true,
        List.eraseIdx_cons_zero]
      exact enumFrom_filter_low rest (k + 1) (k + 0) (by omega)
    | succ i' =>
      have hshift : k + (i' + 1) = (k + 1) + i' := by omega
      have hne : (k != (k + 1) + i') = true := by
        simp only [bne_iff_ne]
        omega
      simp only [enumFrom, List.filter_cons, hshift, hne, if_true, List.map_cons,
        List.eraseIdx_cons_succ]
      rw [ih (k + 1) i']

/-- `handleRemoveStep` is removal of the element at the given position. -/
theorem handleRemoveStep_eq_eraseIdx (l : List WorkflowStep) (i : Nat) :
    handleRemoveStep l i = l.eraseIdx i := by
  have h := enumFrom_filter_eraseIdx (α := WorkflowStep) l 0 i
  simpa [handleRemoveStep] using h

/-- Removing the final element keeps the remaining orders contiguous. -/
theorem ordersFrom_eraseIdx_last :
    ∀ (l : List WorkflowStep) (k i : Nat), ordersFrom k l = true →
      i + 1 = l.length → ordersFrom k (l.eraseIdx i) = true := by
  intro l
  induction l with
  | nil =>
    intro k i _ hlen
    simp at hlen
  | cons s0 rest ih =>
    intro k i h hlen
    simp only [ordersFrom, Bool.and_eq_true] at h
    obtain ⟨h1, h2⟩ := h
    cases i with
    | zero =>
      have hr0 : rest.length = 0 := by
        simp only [List.length_cons] at hlen
        omega
      have hrest : rest = [] := List.length_eq_zero.mp hr0
      subst hrest
      rfl
    | succ i' =>
      have hlen' : i' + 1 = rest.length := by
        simp only [List.length_cons] at hlen
        omega
      simp only [List.eraseIdx_cons_succ, ordersFrom, h1, Bool.true_and]
      exact ih (k + 1) i' h2 hlen'

/-- Removing any non-final element breaks contiguity: the element after
the removed one keeps its old order, one too high for its new slot. -/
theorem ordersFrom_eraseIdx_mid :
    ∀ (l : List WorkflowStep) (k i : Nat), ordersFrom k l = true →
      i + 1 < l.length → ordersFrom k (l.eraseIdx i) = false := by
  intro l
  induction l with
  | nil =>
    intro k i _ hlen
    simp at hlen
  | cons s0 rest ih =>
    intro k i h hlen
    simp only [ordersFrom, Bool.and_eq_true] at h
    obtain ⟨h1, h2⟩ := h
    cases i with
    | zero =>
      cases rest with
      | nil =>
        simp only [List.length_cons, List.length_nil] at hlen
        omega
      | cons r rest' =>
        simp only [ordersFrom, Bool.and_eq_true] at h2
        obtain ⟨hr, _⟩ := h2
        have hrk : r.order = k + 1 := by simpa [beq_iff_eq] using hr
        have hfalse : (r.order == k) = false := by
          simp only [beq_eq_false_iff_ne]
          omega
        simp [List.eraseIdx_cons_zero, ordersFrom, hfalse]
    | succ i' =>
      have hlen' : i' + 1 < rest.length := by
        simp only [List.length_cons] at hlen
        omega
      simp only [List.eraseIdx_cons_succ, ordersFrom]
      rw [ih (k + 1) i' h2 hlen']
      simp

/-- C9, counterexample: two added steps have contiguous orders 1, 2,
but removing the first leaves a single step whose order is 2 — the
editing operations do not preserve the invariant. -/
theorem c9_counterexample :
    contiguousOrders (handleAddStep (handleAddStep [])) = true ∧
    contiguousOrders (handleRemoveStep (handleAddStep (handleAddStep [])) 0) = false :=
  ⟨rfl, rfl⟩

/-- C9, amended: starting from contiguous orders, `handleAddStep`
preserves contiguity (it appends order `length + 1`), and
`handleRemoveStep` preserves it exactly when the removed step is the
last one; removing a step at any earlier position leaves the later
orders unrenumbered and always breaks the invariant. -/
theorem c9_editing_orders (steps : List WorkflowStep) (i : Nat)
    (h : contiguousOrders steps = true) :
    contiguousOrders (handleAddStep steps) = true ∧
    (i + 1 = steps.length → contiguousOrders (handleRemoveStep steps i) = true) ∧
    (i + 1 < steps.length → contiguousOrders (handleRemoveStep steps i) = false) := by
  refine ⟨?_, ?_, ?_⟩
  · unfold contiguousOrders handleAddStep
    unfold contiguousOrders at h
    rw [ordersFrom_append _ steps 1 h]
    simp [Nat.add_comm]
  · intro hlen
    rw [contiguousOrders, handleRemoveStep_eq_eraseIdx]
    exact ordersFrom_eraseIdx_last steps 1 i h hlen
  · intro hlen
    rw [contiguousOrders, handleRemoveStep_eq_eraseIdx]
    exact ordersFrom_eraseIdx_mid steps 1 i h hlen

/-- Three steps added in a row, for the C9 witness. -/
def stepsC9 : List WorkflowStep :=
  handleAddStep (handleAddStep (handleAddStep []))

/-- C9 witness: the amended editing behaviour evaluated on the concrete
three-step list at removal position 1 (a non-final position). -/
theorem c9_witness :
    contiguousOrders (handleAddStep stepsC9) = true ∧
    (1 + 1 = stepsC9.length → contiguousOrders (handleRemoveStep stepsC9 1) = true) ∧
    (1 + 1 < stepsC9.length → contiguousOrders (handleRemoveStep stepsC9 1) = false) :=
  c9_editing_orders stepsC9 1 (by decide)

/-- The in-use flag agrees with its read-time recomputation: some saved
workflow has some step whose `apiConfigId` equals the definition's id. -/
theorem apiInUse_iff (saved : List ApiWorkflow) (apiId : String) :
    apiInUse saved apiId = true ↔
      ∃ w ∈ saved, ∃ st ∈ w.steps, st.apiConfigId = apiId := by
  simp [apiInUse, List.any_eq_true, beq_iff_eq]

/-- C10: for every ApiConfig as marked on read, its option is disabled
exactly when the recomputed in-use flag holds and the draft does not
already reference it; and saving a draft every step of which passed that
selectability test preserves the invariant that each ApiConfig is
referenced by at most one saved workflow. -/
theorem c10_in_use_exclusivity (saved : List ApiWorkflow) (d : ApiWorkflow)
    (hpw : usedByAtMostOneWorkflow saved)
    (hsel : ∀ st ∈ d.steps, apiInUse saved st.apiConfigId = false) :
    (∀ (savedApis : List ApiConfig) (api : ApiConfig)
        (draftSteps : List WorkflowStep),
        api ∈ markApisInWorkflows savedApis saved →
        (optionDisabled draftSteps api = true ↔
          (apiInUse saved api.id = true ∧
           draftSteps.any (fun st => st.apiConfigId == api.id) = false))) ∧
    usedByAtMostOneWorkflow (saved ++ [d]) := by
  constructor
  · intro savedApis api draftSteps hmem
    obtain ⟨a, ha, rfl⟩ := List.mem_map.mp hmem
    simp [optionDisabled, Bool.and_eq_true, Bool.not_eq_true']
  · rw [usedByAtMostOneWorkflow, List.pairwise_append]
    refine ⟨hpw, List.pairwise_singleton _ _, ?_⟩
    intro w hw d' hd'
    obtain rfl : d' = d := List.mem_singleton.mp hd'
    intro st hst
    cases hrd : referencesApi d' st.apiConfigId with
    | false => rfl
    | true =>
      exfalso
      rw [referencesApi, List.any_eq_true] at hrd
      obtain ⟨st', hst', heq⟩ := hrd
      rw [beq_iff_eq] at heq
      have hfalse := hsel st' hst'
      have htrue : apiInUse saved st'.apiConfigId = true := by
        rw [apiInUse_iff]
        exact ⟨w, hw, st, hst, heq.symm⟩
      rw [hfalse] at htrue
      exact Bool.false_ne_true htrue

/-- The saved workflow of the C10 scenario; it references ApiConfig
`"a"`. -/
def wSavedC10 : ApiWorkflow :=
  { id := "w1", name := "saved", description := ""
    steps := [{ apiConfigId := "a", order := 1 }] }

/-- The draft workflow of the C10 scenario; it references only the
unused ApiConfig `"b"`. -/
def dC10 : ApiWorkflow :=
  { id := "w2", name := "draft", description := ""
    steps := [{ apiConfigId := "b", order := 1 }] }

/-- The ApiConfig `"a"` before marking, for the C10 witness. -/
def apiC10 : ApiConfig :=
  { id := "a", name := "AML", description := "", endpoint := "/aml-check"
    method := HttpMethod.POST, headers := [], parameters := [] }

/-- The ApiConfig `"a"` as the read-time marking produces it. -/
def apiMarkedC10 : ApiConfig :=
  { apiC10 with isPartOfWorkflow := some (apiInUse [wSavedC10] apiC10.id) }

/-- C10 witness: the disabling rule evaluated for the concrete marked
ApiConfig against an empty draft, and the preserved at-most-one
invariant after saving the concrete draft. -/
theorem c10_witness :
    (optionDisabled [] apiMarkedC10 = true ↔
      (apiInUse [wSavedC10] apiMarkedC10.id = true ∧
       ([] : List WorkflowStep).any (fun st => st.apiConfigId == apiMarkedC10.id) =
         false)) ∧
    usedByAtMostOneWorkflow ([wSavedC10] ++ [dC10]) := by
  have h := c10_in_use_exclusivity [wSavedC10] dC10
    (List.pairwise_singleton _ _) (by decide)
  exact ⟨h.1 [apiC10] apiMarkedC10 [] (List.mem_singleton.mpr rfl), h.2⟩
